import Mathlib

/-!
Shallow embedding of the download-resolution core of the video-downloader
service (main express server in src/unnamed/part_001, serverless variant in
src/api/download.js).  External collaborators (the URL parser, the valid-url
library, ytdl-core, youtube-dl-exec, instagram-url-direct) are modelled as
inputs: each embedded function takes the outcome of the external call as an
argument and reproduces the repository code on top of it.
-/

/-! ## JavaScript string and number primitives used by the source -/

/-- Boolean test that `p` is a prefix of `l` (character lists). -/
def startsWithB : List Char → List Char → Bool
  | [], _ => true
  | _ :: _, [] => false
  | p :: ps, c :: cs => (p == c) && startsWithB ps cs

/-- Boolean substring test: `hasSubstr pat l` holds when `pat` occurs
contiguously inside `l`.  Models the JavaScript `String.prototype.includes`
for the non-empty patterns used by the source. -/
def hasSubstr (pat : List Char) : List Char → Bool
  | [] => pat.isEmpty
  | c :: cs => startsWithB pat (c :: cs) || hasSubstr pat cs

/-- JavaScript `s.includes(pat)` on strings. -/
def strContains (s pat : String) : Bool := hasSubstr pat.toList s.toList

/-- JavaScript `String.prototype.replace` with a string pattern: replaces only
the first occurrence of `pat` (the source applies it to the hostname with the
pattern "www." and the empty replacement).  The patterns used by the source
are non-empty. -/
def jsReplaceFirst (pat repl : List Char) : List Char → List Char
  | [] => []
  | c :: cs =>
    if startsWithB pat (c :: cs) then repl ++ (c :: cs).drop pat.length
    else c :: jsReplaceFirst pat repl cs

/-- JavaScript falsy-default on a string: `s || d`. -/
def jsOrS (s d : String) : String := if s = "" then d else s

/-- JavaScript falsy-default on an optional string field: `v || d`
(both `undefined` and the empty string are falsy). -/
def jsOrOptS (v : Option String) (d : String) : String :=
  match v with
  | none => d
  | some s => jsOrS s d

/-- JavaScript `x || 0` on an optional number field. -/
def jsOrInt (v : Option Int) : Int := v.getD 0

/-- Value of a decimal digit run, stopping at the first non-digit, starting
from accumulator `acc` (`none` when no digit has been seen yet). -/
def parseDecDigits : List Char → Option Nat → Option Nat
  | [], acc => acc
  | c :: cs, acc =>
    if c.isDigit then parseDecDigits cs (some ((acc.getD 0) * 10 + (c.toNat - 48)))
    else acc

/-- Value of a hexadecimal digit. -/
def hexVal (c : Char) : Nat :=
  if c.isDigit then c.toNat - 48
  else if 'a' ≤ c ∧ c ≤ 'f' then c.toNat - 87
  else c.toNat - 55

def isHexDigitB (c : Char) : Bool :=
  c.isDigit || ('a' ≤ c && c ≤ 'f') || ('A' ≤ c && c ≤ 'F')

/-- Value of a hexadecimal digit run, stopping at the first non-hex-digit. -/
def parseHexDigits : List Char → Option Nat → Option Nat
  | [], acc => acc
  | c :: cs, acc =>
    if isHexDigitB c then parseHexDigits cs (some ((acc.getD 0) * 16 + hexVal c))
    else acc

/-- Digits of a JavaScript `parseInt` argument after the optional sign:
a `0x`/`0X` prefix switches to base 16, otherwise base 10. -/
def parseAfterSign (cs : List Char) : Option Nat :=
  match cs with
  | '0' :: 'x' :: rest => parseHexDigits rest none
  | '0' :: 'X' :: rest => parseHexDigits rest none
  | _ => parseDecDigits cs none

def jsIsSpace (c : Char) : Bool :=
  c = ' ' || c = '\t' || c = '\n' || c = '\r'

/-- JavaScript `parseInt(s)` (default radix): skip leading whitespace, optional
sign, then leading digits; `none` models `NaN`. -/
def jsParseIntChars (cs : List Char) : Option Int :=
  let cs := cs.dropWhile jsIsSpace
  match cs with
  | '-' :: rest => (parseAfterSign rest).map (fun n => -(n : Int))
  | '+' :: rest => (parseAfterSign rest).map (fun n => (n : Int))
  | rest => (parseAfterSign rest).map (fun n => (n : Int))

/-- JavaScript `parseInt(s) || 0` on a string. -/
def jsParseIntOr0Str (s : String) : Int :=
  match jsParseIntChars s.toList with
  | none => 0
  | some n => n

/-- JavaScript `parseInt(v) || 0` on an optional string field
(`parseInt(undefined)` is `NaN`, hence `0` after `|| 0`). -/
def jsParseIntOr0 (v : Option String) : Int :=
  match v with
  | none => 0
  | some s => jsParseIntOr0Str s

/-- JavaScript `String.prototype.toUpperCase` for the ASCII container names
used here (kernel-reducible, unlike `String.toUpper`). -/
def jsToUpper (s : String) : String :=
  String.mk (s.toList.map (fun c => if 'a' ≤ c ∧ c ≤ 'z' then Char.ofNat (c.toNat - 32) else c))

/-! ## Data model -/

/-- One encoding descriptor as returned by the YouTube engine
(the fields the source reads).  Optional fields model `undefined`. -/
structure YtFormat where
  hasAudio : Bool
  hasVideo : Bool
  bitrate : Option Int
  qualityLabel : Option String
  fps : Option Int
  container : String
  contentLength : Option String
  url : String
deriving DecidableEq

structure VideoDetails where
  title : String
deriving DecidableEq

/-- Outcome of `ytdlCore.getInfo` on success. -/
structure YtInfo where
  videoDetails : VideoDetails
  formats : List YtFormat
deriving DecidableEq

/-- The response payload shape built by every adapter (spec: ResolvedDownload). -/
structure Resolved where
  title : String
  format : String
  filesize : String
  download_url : String
deriving DecidableEq

instance {ε α : Type} [DecidableEq ε] [DecidableEq α] : DecidableEq (Except ε α) := fun x y =>
  match x, y with
  | Except.ok a, Except.ok b =>
    if h : a = b then isTrue (by rw [h]) else isFalse (by simp [h])
  | Except.error a, Except.error b =>
    if h : a = b then isTrue (by rw [h]) else isFalse (by simp [h])
  | Except.ok _, Except.error _ => isFalse (by simp)
  | Except.error _, Except.ok _ => isFalse (by simp)

/-! ## The sort used by the format selector

`Array.prototype.sort` in Node is stable; V8 swaps two elements exactly when
the comparator returns a value greater than zero.  A comparator result of
`NaN` (modelled as `none`) is neither less nor greater than zero, so it causes
no reordering, exactly like a comparator result of 0.  The insertion sort
below processes elements from the right, so an element is placed before an
already-inserted (originally later) element unless the comparator strictly
demands otherwise: this is stable and agrees with Node on every consistent
comparator, and on two-element arrays for any comparator. -/

def cmpGtZero : Option Int → Bool
  | some v => decide (0 < v)
  | none => false

def jsInsert (cmp : α → α → Option Int) (x : α) : List α → List α
  | [] => [x]
  | y :: ys => if cmpGtZero (cmp x y) then y :: jsInsert cmp x ys else x :: y :: ys

def jsSort (cmp : α → α → Option Int) : List α → List α
  | [] => []
  | x :: xs => jsInsert cmp x (jsSort cmp xs)

/-- Optional subtraction: `none` (NaN) as soon as one operand is `undefined`. -/
def jsSubOpt (x y : Option Int) : Option Int :=
  match x, y with
  | some m, some n => some (m - n)
  | _, _ => none

/-- The audio comparator of the source: `(a, b) => b.bitrate - a.bitrate`. -/
def audioCmp (a b : YtFormat) : Option Int := jsSubOpt b.bitrate a.bitrate

/-- The video comparator of the source: parsed quality label descending, then
fps descending, both defaulted to 0 with `|| 0`. -/
def videoCmp (a b : YtFormat) : Option Int :=
  let aQuality := jsParseIntOr0 a.qualityLabel
  let bQuality := jsParseIntOr0 b.qualityLabel
  if aQuality ≠ bQuality then some (bQuality - aQuality)
  else some (jsOrInt b.fps - jsOrInt a.fps)

/-- The format selector of `getYouTubeInfo` (src/unnamed/part_001 lines 71-86,
identical in src/api/download.js lines 54-68): filter by the audio/video flags
for the requested type, sort with the corresponding comparator, take the first
element (`[0]` on an empty array is `undefined`, modelled as `none`). -/
def selectFormat (formats : List YtFormat) (ty : String) : Option YtFormat :=
  if ty = "audio" then
    (jsSort audioCmp (formats.filter (fun f => f.hasAudio && !f.hasVideo))).head?
  else
    (jsSort videoCmp (formats.filter (fun f => f.hasVideo && f.hasAudio))).head?

/-! ## File size formatting and the YouTube adapter (src/unnamed/part_001) -/

/-- Renders the rational `num / den` rounded to two decimals with trailing
zeros stripped, as `parseFloat((num / den).toFixed(2))` does.  The source
computes this on binary doubles; the digits are modelled arithmetically, and
no theorem below depends on them. -/
def toFixed2Stripped (num : Nat) (den : Nat) : String :=
  let val100 := (num * 100 * 2 + den) / (den * 2)
  let whole := val100 / 100
  let frac := val100 % 100
  if frac = 0 then toString whole
  else if frac % 10 = 0 then toString whole ++ "." ++ toString (frac / 10)
  else if frac < 10 then toString whole ++ ".0" ++ toString frac
  else toString whole ++ "." ++ toString frac

/-- Function `formatFileSize` (src/unnamed/part_001 lines 57-63).  For positive byte
counts, `Math.floor(Math.log(bytes) / Math.log(1024))` agrees with
`Nat.log 1024` (the ratio of correctly rounded doubles is exact at powers of
1024 and far from integer boundaries elsewhere).  `sizes[i]` past the end of
the array is `undefined`, which string concatenation renders as "undefined";
a negative argument would give `NaN` throughout. -/
def formatFileSize (bytes : Int) : String :=
  if bytes = 0 then "0 Bytes"
  else if bytes < 0 then "NaN undefined"
  else
    let b := bytes.toNat
    let i := Nat.log 1024 b
    let unit := (["Bytes", "KB", "MB", "GB"].get? i).getD "undefined"
    toFixed2Stripped b (1024 ^ i) ++ " " ++ unit

/-- Characters removed by the title sanitizer regex. -/
def isUnsafeChar (c : Char) : Bool :=
  (c == '<') || (c == '>') || (c == ':') || (c == '"') || (c == '/') ||
  (c == '\\') || (c == '|') || (c == '?') || (c == '*')

/-- The title sanitizer regex replacement of the source: removes every
occurrence of the listed characters (the global regex with an empty
replacement string). -/
def sanitizeTitle (t : String) : String :=
  String.mk (t.toList.filter (fun c => !isUnsafeChar c))

/-- Function `getYouTubeInfo` (src/unnamed/part_001 lines 66-105), parametrized by the
outcome of the external `ytdlCore.getInfo` call (`none` models a throw).  The
whole body sits in a try block whose catch replaces any error, including the
internally thrown `No suitable format found`, with the fixed message below. -/
def getYouTubeInfo (info : Option YtInfo) (ty : String) : Except String Resolved :=
  match info with
  | none => Except.error "Failed to fetch YouTube video. Make sure the video is public."
  | some i =>
    match selectFormat i.formats ty with
    | none => Except.error "Failed to fetch YouTube video. Make sure the video is public."
    | some format =>
      let contentLength := jsOrOptS format.contentLength "Unknown"
      Except.ok
        { title := sanitizeTitle i.videoDetails.title
          format := if ty = "audio" then "MP3" else jsToUpper format.container
          filesize := formatFileSize (jsParseIntOr0Str contentLength)
          download_url := format.url }

/-! ## URL validation (src/unnamed/part_001 lines 20-54) -/

/-- Hostname of a URL after the "www." replacement on the result of the
external URL parser.  `getDomain` (lines 20-27) returns `null` (here `none`)
when the URL constructor throws. -/
def strippedDomain (h : String) : String :=
  String.mk (jsReplaceFirst "www.".toList [] h.toList)

def getDomain (hostname : Option String) : Option String :=
  match hostname with
  | none => none
  | some h => some (strippedDomain h)

/-- The allow-list exactly as written in the source (vimeo.com is listed
twice there). -/
def allowedDomains : List String :=
  ["youtube.com", "youtu.be", "tiktok.com", "instagram.com",
   "facebook.com", "fb.watch", "twitter.com", "x.com",
   "reddit.com", "vimeo.com", "dailymotion.com", "bilibili.com",
   "twitch.tv", "vimeo.com", "soundcloud.com", "streamable.com"]

inductive Validation where
  | invalid (error : String)
  | valid (domain : String)
deriving DecidableEq

/-- Function `validateVideoUrl` (lines 30-54), parametrized by the outcome of the
external `validUrl.isUri` check and of the URL parser.  `if (!domain)` is
true both for `null` and for the empty string. -/
def validateVideoUrl (isUri : Bool) (hostname : Option String) : Validation :=
  if !isUri then Validation.invalid "Invalid URL format"
  else
    match getDomain hostname with
    | none => Validation.invalid "Invalid URL"
    | some d =>
      if d = "" then Validation.invalid "Invalid URL"
      else if allowedDomains.any (fun a => strContains d a) then Validation.valid d
      else Validation.invalid "Website not supported. Please check the URL."

/-! ## The endpoint (src/unnamed/part_001 lines 195-261) -/

structure ReqBody where
  url : Option String
  type : Option String
deriving DecidableEq

inductive ApiResponse where
  | ok (payload : Resolved)
  | err (status : Nat) (message : String)
deriving DecidableEq

/-- Outcome of the validation phase: an early response, or a provider call
with the validated domain and type. -/
inductive Dispatch where
  | respond (status : Nat) (error : String)
  | callProvider (domain : String) (ty : String)
deriving DecidableEq

/-- Lines 197-212: missing url, invalid type, then URL validation.
The destructuring default applies the type "video" only when the field is
absent. -/
def endpointValidate (body : ReqBody) (isUri : Bool) (hostname : Option String) : Dispatch :=
  let ty := match body.type with | none => "video" | some t => t
  match body.url with
  | none => Dispatch.respond 400 "Video URL is required"
  | some u =>
    if u = "" then Dispatch.respond 400 "Video URL is required"
    else if ty = "video" ∨ ty = "audio" then
      match validateVideoUrl isUri hostname with
      | Validation.invalid e => Dispatch.respond 400 e
      | Validation.valid domain => Dispatch.callProvider domain ty
    else Dispatch.respond 400 "Invalid download type"

/-- The catch block of the endpoint (lines 240-257): substring matching on the
error message.  The initial `Failed to download video` default is overwritten
on every branch; the final branch applies `error.message || ...`. -/
def translateError (msg : String) : String :=
  if strContains msg "private" || strContains msg "unavailable" then
    "Video is private or unavailable"
  else if strContains msg "copyright" || strContains msg "restricted" then
    "Video is copyright restricted"
  else if strContains msg "not found" || strContains msg "404" then
    "Video not found. Please check the URL"
  else if strContains msg "format" || strContains msg "No suitable" then
    "No suitable video format available"
  else if strContains msg "rate limit" || strContains msg "too many" then
    "Rate limit exceeded. Please try again later"
  else if strContains msg "timeout" || strContains msg "time out" then
    "Request timeout. Please try again"
  else jsOrS msg "An error occurred while processing your request"

/-- Lines 224-235 plus the catch: result validation (`!result ||
!result.download_url` throws `No download link available`, caught below), then
the success response with its falsy-defaults. -/
def endpointAfterDispatch (ty : String) (outcome : Except String (Option Resolved)) : ApiResponse :=
  match outcome with
  | Except.error e => ApiResponse.err 500 (translateError e)
  | Except.ok none => ApiResponse.err 500 (translateError "No download link available")
  | Except.ok (some r) =>
    if r.download_url = "" then
      ApiResponse.err 500 (translateError "No download link available")
    else
      ApiResponse.ok
        { title := jsOrS r.title "Video Download"
          format := jsOrS r.format (if ty = "audio" then "MP3" else "MP4")
          filesize := jsOrS r.filesize "Unknown"
          download_url := r.download_url }

/-- The whole POST handler, parametrized by the external outcomes: routing by
domain (lines 218-222) between the YouTube adapter and the generic adapter. -/
def endpointFull (body : ReqBody) (isUri : Bool) (hostname : Option String)
    (ytInfo : Option YtInfo) (generic : Except String Resolved) : ApiResponse :=
  match endpointValidate body isUri hostname with
  | Dispatch.respond s e => ApiResponse.err s e
  | Dispatch.callProvider domain ty =>
    let outcome :=
      if strContains domain "youtube.com" || strContains domain "youtu.be" then
        getYouTubeInfo ytInfo ty
      else generic
    endpointAfterDispatch ty (Except.map some outcome)

/-! ## The generic adapter catch block with the Instagram fallback
(src/unnamed/part_001 lines 169-191) -/

/-- Shape of the `instagram-url-direct` result as read by the source:
`links && links.url && links.url.length > 0`. -/
structure IgLinks where
  url : Option (List String)
deriving DecidableEq

/-- The error-recovery phase of `getGenericInfo`: `tryOutcome` is what the try
block produced or threw, `ig` is the outcome of the `getInstagram` call (only
consulted when the URL contains `instagram.com`).  A fallback failure is
logged and the original error is rethrown wrapped in
`Failed to download video: ...`. -/
def genericResolve (url : String) (tryOutcome : Except String Resolved)
    (ig : Except String (Option IgLinks)) : Except String Resolved :=
  match tryOutcome with
  | Except.ok r => Except.ok r
  | Except.error e =>
    if strContains url "instagram.com" then
      match ig with
      | Except.ok (some links) =>
        match links.url with
        | some (l :: _) => Except.ok ⟨"Instagram Video", "MP4", "Unknown", l⟩
        | _ => Except.error ("Failed to download video: " ++ e)
      | _ => Except.error ("Failed to download video: " ++ e)
    else Except.error ("Failed to download video: " ++ e)

/-- Whether the Instagram fallback outcome carries at least one link. -/
def igHasLink : Except String (Option IgLinks) → Bool
  | Except.ok (some links) =>
    match links.url with
    | some (_ :: _) => true
    | _ => false
  | _ => false

/-! ## The serverless variant (src/api/download.js) -/

/-- The catch block of src/api/download.js (lines 96-106). -/
def dlTranslate (msg : String) : String :=
  if strContains msg "private" || strContains msg "unavailable" then
    "Video is private or unavailable"
  else if strContains msg "copyright" || strContains msg "restricted" then
    "Video is restricted by copyright"
  else if strContains msg "Invalid URL" then "Invalid YouTube URL"
  else if strContains msg "No suitable format" then
    "Could not find a suitable format for this video"
  else "Failed to process the video URL"

/-- Lines 74-81 of src/api/download.js: filesize from `format.contentLength`
when truthy, else "Unknown".  The digits of the KB/MB rendering are modelled
arithmetically (the source divides binary doubles); no theorem depends on
them. -/
def dlFilesize (contentLength : Option String) : String :=
  match contentLength with
  | none => "Unknown"
  | some s =>
    if s = "" then "Unknown"
    else
      let n := (jsParseIntOr0Str s).toNat
      if n < 1048576 then toString ((n * 2 + 1024) / 2048) ++ " KB"
      else toFixed2Stripped (n * 10 / 1048576) 10 ++ " MB"

/-- The YouTube branch of src/api/download.js (lines 50-91 and its catch),
parametrized by the `getInfo` outcome.  Unlike the main server, the
`No suitable format found for the selected type` error reaches the handler
catch directly and is translated there. -/
def dlYtRespond (info : YtInfo) (ty : String) : ApiResponse :=
  match selectFormat info.formats ty with
  | none => ApiResponse.err 500 (dlTranslate "No suitable format found for the selected type")
  | some format =>
    ApiResponse.ok
      { title := sanitizeTitle info.videoDetails.title
        format := if ty = "audio" then "MP3" else jsToUpper format.container
        filesize := dlFilesize format.contentLength
        download_url := format.url }

/-! ## Specification-side definitions (for refinement statements) -/

/-- Modelled from the spec words: the first element of the list that is
maximal for the boolean order `ge` on keys (ties keep the earliest element,
matching the stable-sort tie-break of the spec). -/
def specFirstMax (key : α → K) (ge : K → K → Bool) : List α → Option α
  | [] => none
  | x :: xs =>
    match specFirstMax key ge xs with
    | none => some x
    | some m => if ge (key x) (key m) then some x else some m

/-- Descending order on integer keys: `a` is at least `b`. -/
def intGe (a b : Int) : Bool := decide (b ≤ a)

/-- Lexicographic descending order on (quality, fps) pairs, from the spec:
higher quality first, ties by higher fps. -/
def lexGe (p q : Int × Int) : Bool :=
  decide (q.1 < p.1 ∨ (p.1 = q.1 ∧ q.2 ≤ p.2))

/-- Key of the audio ordering: the bitrate (defined case). -/
def bitrateKey (f : YtFormat) : Int := jsOrInt f.bitrate

/-- Key of the video ordering: parsed quality label and fps, missing values
as 0, exactly the quantities the source comparator computes. -/
def videoKey (f : YtFormat) : Int × Int :=
  (jsParseIntOr0 f.qualityLabel, jsOrInt f.fps)

/-! ## Concrete instances used by the claims -/

/-- The two audio-only encodings of the worked audio example. -/
def c1fmt128 : YtFormat :=
  ⟨true, false, some 128, none, none, "webm", none, "http://a/128"⟩

def c1fmt256 : YtFormat :=
  ⟨true, false, some 256, none, none, "webm", none, "http://a/256"⟩

/-- An audio-only encoding whose bitrate field is absent. -/
def c1fmtMissing : YtFormat :=
  ⟨true, false, none, none, none, "webm", none, "http://a/missing"⟩

/-- The three combined encodings of the worked video example. -/
def c2fmt720 : YtFormat :=
  ⟨true, true, none, some "720p", some 30, "mp4", none, "http://v/720"⟩

def c2fmt1080a : YtFormat :=
  ⟨true, true, none, some "1080p", some 24, "mp4", none, "http://v/1080a"⟩

def c2fmt1080b : YtFormat :=
  ⟨true, true, none, some "1080p", some 30, "mp4", none, "http://v/1080b"⟩

/-- Request and provider data for a YouTube video listing only an audio-only
encoding while the request asks for video. -/
def c3req : ReqBody := ⟨some "https://www.youtube.com/watch?v=abc", some "video"⟩

def c3fmtAudioOnly : YtFormat :=
  ⟨true, false, some 128, none, none, "webm", none, "http://a/only"⟩

def c3info : YtInfo := ⟨⟨"Some Title"⟩, [c3fmtAudioOnly]⟩

/-- A combined encoding with no content length. -/
def c5fmt : YtFormat :=
  ⟨true, true, none, some "360p", some 30, "mp4", none, "http://v/nocl"⟩

def c5info : YtInfo := ⟨⟨"Title"⟩, [c5fmt]⟩

/-! ## Lemmas about the embedded sort and the spec-side first-maximum -/

theorem mem_jsInsert {cmp : α → α → Option Int} {x z : α} :
    ∀ {l : List α}, z ∈ jsInsert cmp x l → z = x ∨ z ∈ l := by
  intro l
  induction l with
  | nil =>
    intro h
    simp only [jsInsert, List.mem_singleton] at h
    exact Or.inl h
  | cons y ys ih =>
    intro h
    simp only [jsInsert] at h
    by_cases hc : cmpGtZero (cmp x y) = true
    · rw [if_pos hc] at h
      rcases List.mem_cons.mp h with h | h
      · exact Or.inr (List.mem_cons.mpr (Or.inl h))
      · rcases ih h with h | h
        · exact Or.inl h
        · exact Or.inr (List.mem_cons.mpr (Or.inr h))
    · rw [if_neg hc] at h
      rcases List.mem_cons.mp h with h | h
      · exact Or.inl h
      · exact Or.inr h

theorem mem_jsSort {cmp : α → α → Option Int} {z : α} :
    ∀ {l : List α}, z ∈ jsSort cmp l → z ∈ l := by
  intro l
  induction l with
  | nil => intro h; simpa [jsSort] using h
  | cons x xs ih =>
    intro h
    rcases mem_jsInsert h with h | h
    · exact h ▸ List.mem_cons_self x xs
    · exact List.mem_cons.mpr (Or.inr (ih h))

theorem specFirstMax_ne_none (key : α → K) (ge : K → K → Bool) (x : α) (xs : List α) :
    specFirstMax key ge (x :: xs) ≠ none := by
  simp only [specFirstMax]
  cases specFirstMax key ge xs with
  | none => simp
  | some m =>
    by_cases h : ge (key x) (key m) = true <;> simp [h]

/-- Head of the embedded stable sort: whenever the comparator agrees with the
negation of a boolean key order on the elements of the list, the first element
of the sorted list is the first maximal element of the input. -/
theorem jsSort_head (cmp : α → α → Option Int) (key : α → K) (ge : K → K → Bool)
    (l : List α)
    (hc : ∀ x ∈ l, ∀ y ∈ l, cmpGtZero (cmp x y) = !(ge (key x) (key y))) :
    (jsSort cmp l).head? = specFirstMax key ge l := by
  induction l with
  | nil => rfl
  | cons x xs ih =>
    have hc' : ∀ a ∈ xs, ∀ b ∈ xs, cmpGtZero (cmp a b) = !(ge (key a) (key b)) :=
      fun a ha b hb =>
        hc a (List.mem_cons.mpr (Or.inr ha)) b (List.mem_cons.mpr (Or.inr hb))
    have ihh := ih hc'
    show (jsInsert cmp x (jsSort cmp xs)).head? = _
    cases hs : jsSort cmp xs with
    | nil =>
      rw [hs] at ihh
      simp only [List.head?] at ihh
      simp only [jsInsert, List.head?, specFirstMax, ← ihh]
    | cons y ys =>
      rw [hs] at ihh
      simp only [List.head?] at ihh
      have hy : y ∈ xs := mem_jsSort (hs ▸ List.mem_cons_self y ys)
      have hxy := hc x (List.mem_cons_self x xs) y (List.mem_cons.mpr (Or.inr hy))
      simp only [jsInsert, specFirstMax, ← ihh]
      by_cases hg : ge (key x) (key y) = true
      · rw [hxy, hg]
        simp [hg]
      · rw [hxy]
        simp only [Bool.not_eq_true] at hg
        simp [hg]

/-- The first maximal element is a member and dominates every member, for a
total transitive boolean order. -/
theorem specFirstMax_sound (key : α → K) (ge : K → K → Bool)
    (hrefl : ∀ a, ge a a = true)
    (htot : ∀ a b, ge a b = false → ge b a = true)
    (htr : ∀ a b c, ge a b = true → ge b c = true → ge a c = true) :
    ∀ (l : List α) (m : α), specFirstMax key ge l = some m →
      m ∈ l ∧ ∀ x ∈ l, ge (key m) (key x) = true := by
  intro l
  induction l with
  | nil => intro m h; simp [specFirstMax] at h
  | cons x xs ih =>
    intro m h
    simp only [specFirstMax] at h
    cases hs : specFirstMax key ge xs with
    | none =>
      rw [hs] at h
      have hm : x = m := by
        cases h
        rfl
      subst hm
      have hxs : xs = [] := by
        cases xs with
        | nil => rfl
        | cons a as => exact absurd hs (specFirstMax_ne_none key ge a as)
      subst hxs
      refine ⟨List.mem_singleton.mpr rfl, ?_⟩
      intro z hz
      rw [List.mem_singleton.mp hz]
      exact hrefl _
    | some w =>
      rw [hs] at h
      have h' : (if ge (key x) (key w) = true then some x else some w) = some m := h
      obtain ⟨hw, hdom⟩ := ih w hs
      by_cases hg : ge (key x) (key w) = true
      · rw [if_pos hg] at h'
        have hm : x = m := by cases h'; rfl
        subst hm
        refine ⟨List.mem_cons_self x xs, ?_⟩
        intro z hz
        rcases List.mem_cons.mp hz with hz | hz
        · rw [hz]; exact hrefl _
        · exact htr _ _ _ hg (hdom z hz)
      · rw [if_neg hg] at h'
        have hm : w = m := by cases h'; rfl
        subst hm
        refine ⟨List.mem_cons.mpr (Or.inr hw), ?_⟩
        intro z hz
        rcases List.mem_cons.mp hz with hz | hz
        · rw [hz]
          exact htot _ _ (Bool.not_eq_true _ ▸ (by simpa using hg))
        · exact hdom z hz

theorem intGe_refl (a : Int) : intGe a a = true := by simp [intGe]

theorem intGe_total (a b : Int) : intGe a b = false → intGe b a = true := by
  simp [intGe]; omega

theorem intGe_trans (a b c : Int) : intGe a b = true → intGe b c = true → intGe a c = true := by
  simp [intGe]; omega

theorem lexGe_refl (p : Int × Int) : lexGe p p = true := by simp [lexGe]

theorem lexGe_total (p q : Int × Int) : lexGe p q = false → lexGe q p = true := by
  simp only [lexGe, decide_eq_false_iff_not, decide_eq_true_eq]
  omega

theorem lexGe_trans (p q r : Int × Int) :
    lexGe p q = true → lexGe q r = true → lexGe p r = true := by
  simp only [lexGe, decide_eq_true_eq]
  omega

/-- On formats whose bitrate is present, the audio comparator is the negation
of the descending bitrate order. -/
theorem audioCmp_key (x y : YtFormat) (hx : x.bitrate.isSome = true)
    (hy : y.bitrate.isSome = true) :
    cmpGtZero (audioCmp x y) = !(intGe (bitrateKey x) (bitrateKey y)) := by
  obtain ⟨bx, hbx⟩ := Option.isSome_iff_exists.mp hx
  obtain ⟨cy, hcy⟩ := Option.isSome_iff_exists.mp hy
  simp only [audioCmp, jsSubOpt, bitrateKey, jsOrInt, hbx, hcy, cmpGtZero, Option.getD_some,
    intGe, ← decide_not, decide_eq_decide]
  omega

/-- The video comparator is everywhere the negation of the descending
lexicographic order on (parsed quality, fps). -/
theorem videoCmp_key (x y : YtFormat) :
    cmpGtZero (videoCmp x y) = !(lexGe (videoKey x) (videoKey y)) := by
  simp only [videoCmp, videoKey, lexGe, cmpGtZero]
  by_cases h : jsParseIntOr0 x.qualityLabel = jsParseIntOr0 y.qualityLabel
  · rw [if_neg (by simp [h])]
    simp only [cmpGtZero, ← decide_not, decide_eq_decide]
    omega
  · rw [if_pos h]
    simp only [cmpGtZero, ← decide_not, decide_eq_decide]
    omega

/-! ## Lemmas about the embedded string primitives -/

theorem startsWithB_append (l t : List Char) : startsWithB l (l ++ t) = true := by
  induction l with
  | nil => rfl
  | cons c cs ih => simp [startsWithB, ih]

/-- Replacement removes the occurrence of `pat` starting at position `a.length`
when no occurrence starts earlier. -/
theorem jsReplaceFirst_first_occurrence (pat repl : List Char) (hne : pat ≠ []) :
    ∀ a b : List Char,
      (∀ k, k < a.length → startsWithB pat ((a ++ pat ++ b).drop k) = false) →
      jsReplaceFirst pat repl (a ++ pat ++ b) = a ++ repl ++ b := by
  intro a
  induction a with
  | nil =>
    intro b _
    cases pat with
    | nil => exact absurd rfl hne
    | cons p ps =>
      show jsReplaceFirst (p :: ps) repl ((p :: ps) ++ b) = repl ++ b
      have hpre := startsWithB_append (p :: ps) b
      simp only [List.cons_append, jsReplaceFirst]
      rw [if_pos (by simpa using hpre)]
      congr 1
      exact List.drop_left (p :: ps) b
  | cons c a' ih =>
    intro b hk
    have h0 : startsWithB pat (((c :: a') ++ pat ++ b).drop 0) = false := hk 0 (by simp)
    simp only [List.drop_zero] at h0
    show jsReplaceFirst pat repl (c :: (a' ++ pat ++ b)) = c :: (a' ++ repl ++ b)
    simp only [jsReplaceFirst]
    rw [if_neg (by simpa using h0)]
    congr 1
    exact ih b (fun k hk2 => by
      have := hk (k + 1) (by simpa using Nat.succ_lt_succ hk2)
      simpa using this)

/-- Replacement is the identity when the pattern does not occur. -/
theorem jsReplaceFirst_no_occurrence (pat repl : List Char) :
    ∀ l : List Char, hasSubstr pat l = false → jsReplaceFirst pat repl l = l := by
  intro l
  induction l with
  | nil => intro _; rfl
  | cons c cs ih =>
    intro h
    have h2 : startsWithB pat (c :: cs) = false ∧ hasSubstr pat cs = false := by
      simpa only [hasSubstr, Bool.or_eq_false_iff] using h
    simp only [jsReplaceFirst]
    rw [if_neg (by simp [h2.1])]
    rw [ih h2.2]

/-! ## Claims -/

/-- C1 (amended): for type audio the selector filters to encodings with audio
present and video absent; when every surviving encoding carries a bitrate, it
returns the first survivor with the highest bitrate (ties broken by first
position in input order), and in particular the worked example with bitrates
128 and 256 returns the 256 entry.  A missing bitrate makes the comparator
return NaN, which the stable sort treats as no reordering, not as bitrate 0
(see the counterexample). -/
theorem c1_audio_highest_bitrate :
    (∀ formats : List YtFormat,
        (∀ f ∈ formats.filter (fun f => f.hasAudio && !f.hasVideo), f.bitrate.isSome = true) →
        selectFormat formats "audio" =
          specFirstMax bitrateKey intGe (formats.filter (fun f => f.hasAudio && !f.hasVideo))
      ∧ ∀ m, selectFormat formats "audio" = some m →
          m ∈ formats.filter (fun f => f.hasAudio && !f.hasVideo)
        ∧ ∀ g ∈ formats.filter (fun f => f.hasAudio && !f.hasVideo),
            intGe (bitrateKey m) (bitrateKey g) = true)
  ∧ selectFormat [c1fmt128, c1fmt256] "audio" = some c1fmt256 := by
  constructor
  · intro formats hall
    have heq : selectFormat formats "audio" =
        specFirstMax bitrateKey intGe (formats.filter (fun f => f.hasAudio && !f.hasVideo)) := by
      simp only [selectFormat, if_pos rfl]
      exact jsSort_head audioCmp bitrateKey intGe _
        (fun x hx y hy => audioCmp_key x y (hall x hx) (hall y hy))
    refine ⟨heq, ?_⟩
    intro m hm
    rw [heq] at hm
    exact specFirstMax_sound bitrateKey intGe intGe_refl intGe_total intGe_trans _ m hm
  · decide

/-- C1 counterexample: with an audio-only encoding of absent bitrate listed
before one of bitrate 128, the selector returns the absent-bitrate entry,
not the highest-bitrate entry as the claim (missing bitrate treated as 0)
requires: the comparator `b.bitrate - a.bitrate` evaluates to NaN and the
stable sort leaves the pair in input order. -/
theorem c1_missing_bitrate_counterexample :
    selectFormat [c1fmtMissing, c1fmt128] "audio" = some c1fmtMissing
  ∧ c1fmtMissing.bitrate = none
  ∧ c1fmt128.bitrate = some 128
  ∧ ¬ selectFormat [c1fmtMissing, c1fmt128] "audio" = some c1fmt128 := by decide

theorem c1_audio_highest_bitrate_witness :
    selectFormat [c1fmt128, c1fmt256] "audio" =
      specFirstMax bitrateKey intGe
        ([c1fmt128, c1fmt256].filter (fun f => f.hasAudio && !f.hasVideo)) :=
  (c1_audio_highest_bitrate.1 [c1fmt128, c1fmt256] (by decide)).1

/-- C2: for type video the selector filters to encodings with both audio and
video present and returns the first survivor maximal for parsed quality label
then fps (missing values as 0); the worked example returns the 1080p, 30 fps
entry. -/
theorem c2_video_quality_fps :
    (∀ formats : List YtFormat,
        selectFormat formats "video" =
          specFirstMax videoKey lexGe (formats.filter (fun f => f.hasVideo && f.hasAudio))
      ∧ ∀ m, selectFormat formats "video" = some m →
          m ∈ formats.filter (fun f => f.hasVideo && f.hasAudio)
        ∧ ∀ g ∈ formats.filter (fun f => f.hasVideo && f.hasAudio),
            lexGe (videoKey m) (videoKey g) = true)
  ∧ selectFormat [c2fmt720, c2fmt1080a, c2fmt1080b] "video" = some c2fmt1080b := by
  constructor
  · intro formats
    have heq : selectFormat formats "video" =
        specFirstMax videoKey lexGe (formats.filter (fun f => f.hasVideo && f.hasAudio)) := by
      simp only [selectFormat, if_neg (by decide : ¬("video" = "audio"))]
      exact jsSort_head videoCmp videoKey lexGe _ (fun x _ y _ => videoCmp_key x y)
    refine ⟨heq, ?_⟩
    intro m hm
    rw [heq] at hm
    exact specFirstMax_sound videoKey lexGe lexGe_refl lexGe_total lexGe_trans _ m hm
  · decide

theorem c2_video_quality_fps_witness :
    lexGe (videoKey c2fmt1080b) (videoKey c2fmt720) = true :=
  (((c2_video_quality_fps.1 [c2fmt720, c2fmt1080a, c2fmt1080b]).2
      c2fmt1080b (by decide)).2) c2fmt720 (by decide)

/-- C3 (amended): when no encoding matches the required flag combination, the
selector returns `none` and the endpoint responds 500 rather than crashing;
in the main server the YouTube adapter catch rewraps the internal
`No suitable format found` error into its generic fetch-failure message, while
the serverless variant responds with the NoSuitableFormat category message. -/
theorem c3_no_suitable_format (info : YtInfo) (ty : String)
    (h : selectFormat info.formats ty = none) :
    getYouTubeInfo (some info) ty =
      Except.error "Failed to fetch YouTube video. Make sure the video is public."
  ∧ endpointAfterDispatch ty (Except.map some (getYouTubeInfo (some info) ty)) =
      ApiResponse.err 500 "Failed to fetch YouTube video. Make sure the video is public."
  ∧ dlYtRespond info ty =
      ApiResponse.err 500 "Could not find a suitable format for this video" := by
  have h1 : getYouTubeInfo (some info) ty =
      Except.error "Failed to fetch YouTube video. Make sure the video is public." := by
    simp [getYouTubeInfo, h]
  refine ⟨h1, ?_, ?_⟩
  · rw [h1]
    exact (by decide :
      ApiResponse.err 500
          (translateError "Failed to fetch YouTube video. Make sure the video is public.") =
        ApiResponse.err 500 "Failed to fetch YouTube video. Make sure the video is public.")
  · have h2 : dlYtRespond info ty =
        ApiResponse.err 500 (dlTranslate "No suitable format found for the selected type") := by
      simp [dlYtRespond, h]
    rw [h2]
    decide

/-- C3 counterexample: a request for video against a provider listing only an
audio-only encoding yields 500 with the YouTube adapter wrapper message, which
is not the NoSuitableFormat category message and matches none of the
NoSuitableFormat translation patterns. -/
theorem c3_wrapped_message_counterexample :
    endpointFull c3req true (some "www.youtube.com") (some c3info) (Except.error "unused")
      = ApiResponse.err 500 "Failed to fetch YouTube video. Make sure the video is public."
  ∧ selectFormat c3info.formats "video" = none
  ∧ strContains "Failed to fetch YouTube video. Make sure the video is public." "format" = false
  ∧ strContains "Failed to fetch YouTube video. Make sure the video is public." "No suitable" = false
  ∧ ¬ ("Failed to fetch YouTube video. Make sure the video is public." =
        "No suitable video format available") := by decide

theorem c3_no_suitable_format_witness :
    getYouTubeInfo (some c3info) "video" =
      Except.error "Failed to fetch YouTube video. Make sure the video is public." :=
  (c3_no_suitable_format c3info "video" (by decide)).1

/-- C4 (amended): the allow-list test runs on the hostname after its first
`www.` occurrence is removed: when that stripped domain is non-empty and
contains no allow-listed token the response is the 400 message
`Website not supported. Please check the URL.`, and when it contains any
token the validation succeeds with the stripped domain. -/
theorem c4_domain_allowlist (h : String) :
    (¬ strippedDomain h = "" →
       allowedDomains.all (fun t => !(strContains (strippedDomain h) t)) = true →
       validateVideoUrl true (some h) =
         Validation.invalid "Website not supported. Please check the URL.")
  ∧ (¬ strippedDomain h = "" →
       allowedDomains.any (fun t => strContains (strippedDomain h) t) = true →
       validateVideoUrl true (some h) = Validation.valid (strippedDomain h)) := by
  constructor
  · intro hne hall
    have hany : allowedDomains.any (fun a => strContains (strippedDomain h) a) = false := by
      rw [List.any_eq_false]
      intro x hx
      have := List.all_eq_true.mp hall x hx
      simpa using this
    simp [validateVideoUrl, getDomain, hne, hany]
  · intro hne hany
    simp [validateVideoUrl, getDomain, hne, hany]

/-- C4 counterexample: the hostname `youtu.www.be` contains no allow-listed
token, yet validation succeeds (with domain `youtu.be`) instead of returning
the unsupported-website error, because the `www.` in the middle is removed
before the containment test. -/
theorem c4_hostname_counterexample :
    allowedDomains.all (fun t => !(strContains "youtu.www.be" t)) = true
  ∧ validateVideoUrl true (some "youtu.www.be") = Validation.valid "youtu.be"
  ∧ ¬ validateVideoUrl true (some "youtu.www.be") =
      Validation.invalid "Website not supported. Please check the URL." := by decide

theorem c4_domain_allowlist_witness :
    validateVideoUrl true (some "www.youtube.com") =
      Validation.valid (strippedDomain "www.youtube.com") :=
  (c4_domain_allowlist "www.youtube.com").2 (by decide) (by decide)

/-- C5: the falsy default that should surface the string Unknown is dead in
the main server adapter: an absent content length becomes the string Unknown,
which parseInt turns into NaN and the following falsy default into 0, so the
response filesize is the formatted `0 Bytes`, never `Unknown`; the serverless
variant produces `Unknown` as the spec states. -/
theorem c5_absent_content_length_zero_bytes :
    c5fmt.contentLength = none
  ∧ getYouTubeInfo (some c5info) "video" =
      Except.ok ⟨"Title", "MP4", "0 Bytes", "http://v/nocl"⟩
  ∧ dlFilesize none = "Unknown"
  ∧ ¬ (Resolved.filesize ⟨"Title", "MP4", "0 Bytes", "http://v/nocl"⟩ = "Unknown") := by
  decide

/-- C6 (amended): the returned domain is the hostname with the first
occurrence of `www.` removed, wherever it occurs (a leading `www.` prefix is
the special case with nothing before it); a hostname with no `www.` occurrence
is returned unchanged, and an unparseable hostname fails with the
`Invalid URL` error. -/
theorem c6_domain_strip :
    (∀ a b : List Char,
       (∀ k, k < a.length →
          startsWithB "www.".toList ((a ++ "www.".toList ++ b).drop k) = false) →
       getDomain (some (String.mk (a ++ "www.".toList ++ b))) = some (String.mk (a ++ b)))
  ∧ (∀ h : String, hasSubstr "www.".toList h.toList = false → getDomain (some h) = some h)
  ∧ validateVideoUrl true none = Validation.invalid "Invalid URL" := by
  refine ⟨?_, ?_, by decide⟩
  · intro a b hk
    show some (strippedDomain (String.mk (a ++ "www.".toList ++ b))) = _
    have : strippedDomain (String.mk (a ++ "www.".toList ++ b)) = String.mk (a ++ b) := by
      show String.mk (jsReplaceFirst "www.".toList [] (a ++ "www.".toList ++ b)) = _
      rw [jsReplaceFirst_first_occurrence "www.".toList [] (by decide) a b hk]
      simp
    rw [this]
  · intro h hocc
    show some (strippedDomain h) = some h
    obtain ⟨l⟩ := h
    have : strippedDomain (String.mk l) = String.mk l := by
      show String.mk (jsReplaceFirst "www.".toList [] l) = String.mk l
      rw [jsReplaceFirst_no_occurrence "www.".toList [] l hocc]
    rw [this]

/-- C6 counterexample: a `www.` occurring in the middle of the hostname is
also removed, contrary to the leading-prefix-only claim. -/
theorem c6_middle_www_counterexample :
    startsWithB "www.".toList "youtu.www.be".toList = false
  ∧ getDomain (some "youtu.www.be") = some "youtu.be"
  ∧ ¬ getDomain (some "youtu.www.be") = some "youtu.www.be" := by decide

theorem c6_domain_strip_witness :
    getDomain (some (String.mk ("a.".toList ++ "www.".toList ++ "b".toList)))
      = some (String.mk ("a.".toList ++ "b".toList)) :=
  c6_domain_strip.1 "a.".toList "b".toList (by decide)

/-- C7: when the selected adapter produced an absent result or one whose
download_url is empty, the endpoint responds 500 with the NoDownloadLink
message `No download link available` and never a success response. -/
theorem c7_no_download_link (ty : String) (outcome : Except String (Option Resolved))
    (h : outcome = Except.ok none ∨
         ∃ r, outcome = Except.ok (some r) ∧ r.download_url = "") :
    endpointAfterDispatch ty outcome = ApiResponse.err 500 "No download link available"
  ∧ ∀ p, ¬ endpointAfterDispatch ty outcome = ApiResponse.ok p := by
  have htr : translateError "No download link available" = "No download link available" := by
    decide
  have hmain : endpointAfterDispatch ty outcome =
      ApiResponse.err 500 "No download link available" := by
    rcases h with h | ⟨r, h, hu⟩
    · rw [h]
      show ApiResponse.err 500 (translateError "No download link available") = _
      rw [htr]
    · rw [h]
      show (if r.download_url = "" then _ else _) = _
      rw [if_pos hu, htr]
  refine ⟨hmain, ?_⟩
  intro p hp
  rw [hmain] at hp
  exact absurd hp (by simp)

theorem c7_no_download_link_witness :
    endpointAfterDispatch "video" (Except.ok none) =
      ApiResponse.err 500 "No download link available" :=
  (c7_no_download_link "video" (Except.ok none) (Or.inl rfl)).1

/-- C8: the Instagram fallback of the generic adapter is only reached when
the try phase failed and the URL contains `instagram.com`; with at least one
extracted link it yields the placeholder `Instagram Video` / `MP4` /
`Unknown` result carrying the first link, otherwise the original error is
rethrown wrapped as `Failed to download video: ...` with the fallback failure
only logged (the response is independent of the fallback outcome whenever the
fallback carries no link, and for non-Instagram URLs the fallback outcome is
never consulted). -/
theorem c8_instagram_fallback :
    (∀ (url : String) (r : Resolved) (ig : Except String (Option IgLinks)),
        genericResolve url (Except.ok r) ig = Except.ok r)
  ∧ (∀ (url e : String) (ig ig' : Except String (Option IgLinks)),
        strContains url "instagram.com" = false →
        genericResolve url (Except.error e) ig =
          Except.error ("Failed to download video: " ++ e)
      ∧ genericResolve url (Except.error e) ig = genericResolve url (Except.error e) ig')
  ∧ (∀ (url e : String) (links : IgLinks) (l : String) (rest : List String),
        strContains url "instagram.com" = true → links.url = some (l :: rest) →
        genericResolve url (Except.error e) (Except.ok (some links)) =
          Except.ok ⟨"Instagram Video", "MP4", "Unknown", l⟩)
  ∧ (∀ (url e : String) (ig : Except String (Option IgLinks)),
        strContains url "instagram.com" = true → igHasLink ig = false →
        genericResolve url (Except.error e) ig =
          Except.error ("Failed to download video: " ++ e)) := by
  refine ⟨fun url r ig => rfl, ?_, ?_, ?_⟩
  · intro url e ig ig' hni
    constructor
    · simp [genericResolve, hni]
    · simp [genericResolve, hni]
  · intro url e links l rest hig hurl
    simp [genericResolve, hig, hurl]
  · intro url e ig hig hnl
    match ig with
    | Except.error _ => simp [genericResolve, hig]
    | Except.ok none => simp [genericResolve, hig]
    | Except.ok (some links) =>
      match hu : links.url with
      | none => simp [genericResolve, hig, hu]
      | some [] => simp [genericResolve, hig, hu]
      | some (l :: rest) =>
        exact absurd hnl (by simp [igHasLink, hu])

theorem c8_instagram_fallback_witness :
    genericResolve "https://www.instagram.com/p/1" (Except.error "boom")
        (Except.ok (some ⟨some ["http://cdn/v1"]⟩)) =
      Except.ok ⟨"Instagram Video", "MP4", "Unknown", "http://cdn/v1"⟩ :=
  c8_instagram_fallback.2.2.1 "https://www.instagram.com/p/1" "boom"
    ⟨some ["http://cdn/v1"]⟩ "http://cdn/v1" [] (by decide) rfl

/-- C9: a POST body with absent or empty url is answered 400 with the message
`Video URL is required` (which contains "required"), the validation phase
never reaches a provider call, and the full endpoint response is the same for
every provider outcome. -/
theorem c9_missing_url (body : ReqBody) (isUri : Bool) (hostname : Option String)
    (h : body.url = none ∨ body.url = some "") :
    endpointValidate body isUri hostname = Dispatch.respond 400 "Video URL is required"
  ∧ (∀ d t, ¬ endpointValidate body isUri hostname = Dispatch.callProvider d t)
  ∧ (∀ (ytInfo : Option YtInfo) (generic : Except String Resolved),
       endpointFull body isUri hostname ytInfo generic =
         ApiResponse.err 400 "Video URL is required")
  ∧ strContains "Video URL is required" "required" = true := by
  have hval : endpointValidate body isUri hostname =
      Dispatch.respond 400 "Video URL is required" := by
    rcases h with h | h
    · simp [endpointValidate, h]
    · simp [endpointValidate, h]
  refine ⟨hval, ?_, ?_, by decide⟩
  · intro d t hcall
    rw [hval] at hcall
    exact absurd hcall (by simp)
  · intro ytInfo generic
    simp [endpointFull, hval]

theorem c9_missing_url_witness :
    endpointValidate ⟨none, none⟩ true none = Dispatch.respond 400 "Video URL is required" :=
  (c9_missing_url ⟨none, none⟩ true none (Or.inl rfl)).1

/-- C10: every success response of the endpoint carries a non-empty title:
the sanitizer can strip a title made only of filesystem-unsafe characters to
the empty string, and the response construction replaces a falsy title with
`Video Download`. -/
theorem c10_success_title_nonempty :
    (∀ (ty : String) (outcome : Except String (Option Resolved)) (r : Resolved),
        endpointAfterDispatch ty outcome = ApiResponse.ok r → ¬ r.title = "")
  ∧ sanitizeTitle "<>:\"/\\|?*" = ""
  ∧ endpointAfterDispatch "video" (Except.ok (some ⟨"", "MP4", "Unknown", "http://u"⟩)) =
      ApiResponse.ok ⟨"Video Download", "MP4", "Unknown", "http://u"⟩ := by
  refine ⟨?_, by decide, by decide⟩
  intro ty outcome r h
  match outcome with
  | Except.error e => simp [endpointAfterDispatch] at h
  | Except.ok none => simp [endpointAfterDispatch] at h
  | Except.ok (some x) =>
    by_cases hx : x.download_url = ""
    · rw [show endpointAfterDispatch ty (Except.ok (some x)) =
          ApiResponse.err 500 (translateError "No download link available") from by
            show (if x.download_url = "" then _ else _) = _
            rw [if_pos hx]] at h
      exact absurd h (by simp)
    · rw [show endpointAfterDispatch ty (Except.ok (some x)) =
          ApiResponse.ok
            ⟨jsOrS x.title "Video Download",
             jsOrS x.format (if ty = "audio" then "MP3" else "MP4"),
             jsOrS x.filesize "Unknown", x.download_url⟩ from by
            show (if x.download_url = "" then _ else _) = _
            rw [if_neg hx]] at h
      have hr := (ApiResponse.ok.injEq _ _).mp h
      have ht : r.title = jsOrS x.title "Video Download" := by rw [← hr]
      rw [ht]
      by_cases h0 : x.title = ""
      · simp [jsOrS, h0]
      · simp [jsOrS, h0]

theorem c10_success_title_nonempty_witness :
    ¬ (Resolved.title ⟨"Video Download", "MP4", "Unknown", "http://u"⟩ = "") :=
  c10_success_title_nonempty.1 "video" (Except.ok (some ⟨"", "MP4", "Unknown", "http://u"⟩))
    ⟨"Video Download", "MP4", "Unknown", "http://u"⟩ (by decide)
